import Mathlib

/-!
Verification of the configuration-mutation engine of the CommonScripts
provisioning toolkit (`src/Linux/debian_init.py`, `src/Linux/install_debian.py`,
`src/Linux/install_alpine.py`).

The Python code is shallowly embedded: file contents are Lean `String`s,
Python line lists are `List String`, the filesystem is a partial map
`String → Option String`, and the shell commands issued by the swap and sshd
routines are reified as explicit command lists whose effect on observable
state (active swap areas, file contents) is given by small step functions.
Each definition mirrors one function or code block of the source.
-/

set_option autoImplicit false
set_option maxRecDepth 16384

namespace CommonScripts

/-! ## Python string primitives

`str.strip`, `str.startswith`, the `in` substring test, `str.split('\n')`
and `'\n'.join` are the string operations the config rewriters use.
They are modelled character-exactly over `String.data`.
-/

/-- Whitespace characters removed by Python `str.strip()`. -/
def pyWhitespace (c : Char) : Bool :=
  c = ' ' || c = '\t' || c = '\n' || c = '\r' || c = '\x0b' || c = '\x0c'

/-- Drop a trailing run of whitespace characters (the right half of `strip`). -/
def dropTrailWs : List Char → List Char
  | [] => []
  | c :: rest =>
    match dropTrailWs rest with
    | [] => if pyWhitespace c then [] else [c]
    | r => c :: r

/-- Python `str.strip()` on the character list: remove leading and trailing
whitespace. -/
def pyStripData (l : List Char) : List Char :=
  dropTrailWs (l.dropWhile pyWhitespace)

/-- Python `str.strip()`. -/
def pyStrip (s : String) : String :=
  ⟨pyStripData s.data⟩

/-- Python `str.startswith(pre)`. -/
def pyStartsWith (pre s : String) : Bool :=
  pre.data.isPrefixOf s.data

/-- Substring containment, Python's `needle in hay` on strings. -/
def listContains (needle : List Char) : List Char → Bool
  | [] => needle.isEmpty
  | c :: rest => needle.isPrefixOf (c :: rest) || listContains needle rest

/-- Python `needle in hay` for strings. -/
def pyContains (needle hay : String) : Bool :=
  listContains needle.data hay.data

/-- Python `content.split('\n')` on character lists.  Always returns at least
one (possibly empty) segment. -/
def splitNlData : List Char → List (List Char)
  | [] => [[]]
  | c :: rest =>
    if c = '\n' then [] :: splitNlData rest
    else
      match splitNlData rest with
      | [] => [[c]]
      | l :: ls => (c :: l) :: ls

/-- Python `'\n'.join(lines)` on character lists. -/
def joinNlData : List (List Char) → List Char
  | [] => []
  | [l] => l
  | l :: l2 :: ls => l ++ '\n' :: joinNlData (l2 :: ls)

/-- Python `content.split('\n')`. -/
def pySplitLines (s : String) : List String :=
  (splitNlData s.data).map (fun d => ⟨d⟩)

/-- Python `'\n'.join(lines)`. -/
def pyJoinLines (ls : List String) : String :=
  ⟨joinNlData (ls.map String.data)⟩

/-- A string with no embedded newline: the invariant of a single line. -/
def noNl (s : String) : Prop :=
  '\n' ∉ s.data

instance (s : String) : Decidable (noNl s) := by
  unfold noNl; infer_instance

/-! ## Managed-block cleaning loops

`enable_bbr` (debian_init.py lines 941-974) and `configure_ip_priority`
(debian_init.py lines 1058-1098) both run a single pass over the file's
lines carrying one boolean flag (`skip_bbr_section` /
`skip_priority_section`), dropping some lines and keeping others.  The pass
is modelled as a fold whose per-line behaviour is a step function
`Bool → String → Bool × Option String`: new flag value, and the line kept
for `cleaned_lines` (if any).
-/

/-- The `cleaned_lines` accumulated by one cleaning pass, given the per-line
step function and the initial flag value. -/
def cleanAux (step : Bool → String → Bool × Option String) :
    Bool → List String → List String
  | _, [] => []
  | skip, l :: ls =>
    let r := step skip l
    match r.2 with
    | none => cleanAux step r.1 ls
    | some o => o :: cleanAux step r.1 ls

/-- The flag value after one cleaning pass. -/
def cleanState (step : Bool → String → Bool × Option String) :
    Bool → List String → Bool
  | skip, [] => skip
  | skip, l :: ls => cleanState step (step skip l).1 ls

/-- A line which the cleaning pass (started with the flag down) keeps
verbatim while leaving the flag down. -/
def stepFix (step : Bool → String → Bool × Option String) (o : String) : Prop :=
  step false o = (false, some o)

/-- The marker test of `enable_bbr`:
`'# BBR Configuration' in line or '# BBR网络加速' in line` (line 953),
applied to the stripped line. -/
def isBbrMarkerLine (line : String) : Bool :=
  pyContains "# BBR Configuration" line || pyContains "# BBR网络加速" line

/-- One iteration of the `enable_bbr` cleaning loop
(debian_init.py lines 951-965).  The line is stripped first
(`line = line.strip()`); marker lines raise the flag and are dropped;
while the flag is up, `net.core.default_qdisc` / `net.ipv4.tcp_congestion_control`
lines are dropped; an empty or comment line lowers the flag (the comment
line is kept); anything else lowers the flag and is kept (stripped). -/
def bbrStep (skip : Bool) (line0 : String) : Bool × Option String :=
  let line := pyStrip line0
  if isBbrMarkerLine line then
    (true, none)
  else if skip && (pyStartsWith "net.core.default_qdisc" line ||
      pyStartsWith "net.ipv4.tcp_congestion_control" line) then
    (skip, none)
  else if skip && (line.isEmpty || pyStartsWith "#" line) then
    (false, if line.isEmpty then none else some line)
  else
    (false, some line)

/-- The marker test of `configure_ip_priority`:
`'# IP Priority Configuration' in line or '# IP优先级配置' in line`
(line 1072), applied to the stripped line. -/
def isIpMarkerLine (line : String) : Bool :=
  pyContains "# IP Priority Configuration" line || pyContains "# IP优先级配置" line

/-- One iteration of the `configure_ip_priority` cleaning loop
(debian_init.py lines 1067-1084).  Marker lines raise the flag and are
dropped; while the flag is up, `precedence`/`label`/empty/comment lines hit
a branch whose inner condition contradicts the branch guard, so they are
dropped with the flag unchanged; anything else lowers the flag and is kept
as the original (unstripped) line. -/
def ipStep (skip : Bool) (line0 : String) : Bool × Option String :=
  let line := pyStrip line0
  if isIpMarkerLine line then
    (true, none)
  else if skip && (pyStartsWith "precedence" line || pyStartsWith "label" line ||
      line.isEmpty || pyStartsWith "#" line) then
    if skip && !line.isEmpty && !pyStartsWith "#" line &&
        !pyStartsWith "precedence" line && !pyStartsWith "label" line then
      (false, some line0)
    else
      (skip, none)
  else
    (false, some line0)

/-! ## The rewrites themselves -/

/-- The literal `bbr_config` appended by `enable_bbr` (line 969). -/
def bbrConfigBlock : String :=
  "\n# BBR Configuration - Auto Generated\nnet.core.default_qdisc=fq\nnet.ipv4.tcp_congestion_control=bbr"

/-- The lines of `bbrConfigBlock` after its leading newline. -/
def bbrTailLines : List String :=
  ["# BBR Configuration - Auto Generated",
   "net.core.default_qdisc=fq",
   "net.ipv4.tcp_congestion_control=bbr"]

/-- The new `/etc/sysctl.conf` content produced by `enable_bbr`
(lines 943-974): split, clean, rejoin, append the BBR block and a final
newline. -/
def enableBbrRewrite (content : String) : String :=
  pyJoinLines (cleanAux bbrStep false (pySplitLines content)) ++ bbrConfigBlock ++ "\n"

/-- Path of the sysctl configuration file mutated by `enable_bbr`. -/
def sysctlConfPath : String := "/etc/sysctl.conf"

/-- The file writes performed by the clean-then-append step of `enable_bbr`
(lines 971-974).  The code opens the file for writing unconditionally, so
the list always holds exactly one write. -/
def enableBbrWrites (content : String) : List (String × String) :=
  [(sysctlConfPath, enableBbrRewrite content)]

/-- The literal `priority_config` appended by `configure_ip_priority` for
IPv4 preference (line 1090). -/
def ipv4PriorityBlock : String :=
  "\n# IP Priority Configuration - IPv4 Preferred\n# IPv4优先配置\nprecedence ::ffff:0:0/96  100\nprecedence ::/0          50\nprecedence 2002::/16     30\nprecedence ::/96         20\nprecedence ::1/128       40"

/-- The literal `priority_config` appended by `configure_ip_priority` for
IPv6 preference (line 1092). -/
def ipv6PriorityBlock : String :=
  "\n# IP Priority Configuration - IPv6 Preferred\n# IPv6优先配置\nprecedence ::/0          100\nprecedence ::ffff:0:0/96 50\nprecedence 2002::/16     30\nprecedence ::/96         20\nprecedence ::1/128       40"

/-- The lines of `ipv4PriorityBlock` after its leading newline. -/
def ipv4TailLines : List String :=
  ["# IP Priority Configuration - IPv4 Preferred",
   "# IPv4优先配置",
   "precedence ::ffff:0:0/96  100",
   "precedence ::/0          50",
   "precedence 2002::/16     30",
   "precedence ::/96         20",
   "precedence ::1/128       40"]

/-- The lines of `ipv6PriorityBlock` after its leading newline. -/
def ipv6TailLines : List String :=
  ["# IP Priority Configuration - IPv6 Preferred",
   "# IPv6优先配置",
   "precedence ::/0          100",
   "precedence ::ffff:0:0/96 50",
   "precedence 2002::/16     30",
   "precedence ::/96         20",
   "precedence ::1/128       40"]

/-- The new `/etc/gai.conf` content produced by `configure_ip_priority`
(lines 1059-1098) for a given priority block. -/
def configureIpRewrite (block : String) (content : String) : String :=
  pyJoinLines (cleanAux ipStep false (pySplitLines content)) ++ block ++ "\n"

/-- `'\n'.join` cannot distinguish `[]` from `[""]`; `padNonempty` picks the
canonical nonempty line list with the same join, used to describe the line
decomposition of a rewrite's output. -/
def padNonempty (K : List String) : List String :=
  if K = [] then [""] else K

/-! ## Line counting for the managed-block invariants -/

/-- Number of lines of `content` whose stripped form matches the BBR marker
test, the test `enable_bbr` itself uses to recognise its block. -/
def bbrMarkerLineCount (content : String) : Nat :=
  ((pySplitLines content).filter (fun l => isBbrMarkerLine (pyStrip l))).length

/-- Number of lines of `content` equal to `target`. -/
def exactLineCount (target content : String) : Nat :=
  ((pySplitLines content).filter (fun l => l = target)).length

/-- `content` holds no line whose stripped form starts with one of the BBR
directive keys: no legacy (unmarked) directive lines. -/
def bbrLegacyFree (content : String) : Bool :=
  (pySplitLines content).all fun l =>
    !(pyStartsWith "net.core.default_qdisc" (pyStrip l) ||
      pyStartsWith "net.ipv4.tcp_congestion_control" (pyStrip l))

/-- A history of operations on one config file: applications of the
`enable_bbr` clean-then-append rewrite, interleaved with other edits of the
same file (an edit is an arbitrary transformation of the content). -/
inductive FileOp where
  | applyBbr : FileOp
  | edit : (String → String) → FileOp

/-- Run a history of file operations over an initial content. -/
def runFileOps : String → List FileOp → String
  | c, [] => c
  | c, FileOp.applyBbr :: ops => runFileOps (enableBbrRewrite c) ops
  | c, FileOp.edit g :: ops => runFileOps (g c) ops

/-- `n` consecutive applications of the `enable_bbr` rewrite. -/
def iterateBbr : Nat → String → String
  | 0, c => c
  | n + 1, c => iterateBbr n (enableBbrRewrite c)

/-! ## Swap resize command trace (C1)

`increase_swap` (debian_init.py lines 667-761, identically
install_debian.py lines 514-589) issues a fixed sequence of shell commands
in its `swap_type == "file"` branch.  The commands are reified, and their
effect on the set of active swap areas (what `swapon --show` reports) is
given by a step function: `swapoff` removes an area, `swapon` adds one,
`mv` renames the backing path, everything else leaves activation unchanged.
-/

inductive SwapCmd where
  | fallocate (path : String)
  | chmod (path : String)
  | mkswap (path : String)
  | swapoff (path : String)
  | swapon (path : String)
  | move (src dst : String)
  | updateFstab
  deriving DecidableEq, BEq

/-- The temporary swap file used by the resize branch (`tmp_file`, line 705). -/
def swapTmpFile : String := "/swapfile.tmp"

/-- The commands run by the `swap_type == "file"` branch of `increase_swap`
(debian_init.py lines 703-728), in source order: create and format the
temporary file, deactivate the old area, activate the new one, rename it
over the old path, update `/etc/fstab`. -/
def fileResizeCmds (existingFile : String) : List SwapCmd :=
  [SwapCmd.fallocate swapTmpFile,
   SwapCmd.chmod swapTmpFile,
   SwapCmd.mkswap swapTmpFile,
   SwapCmd.swapoff existingFile,
   SwapCmd.swapon swapTmpFile,
   SwapCmd.move swapTmpFile existingFile,
   SwapCmd.updateFstab]

/-- Effect of one command on the list of active swap areas. -/
def swapCmdStep (active : List String) : SwapCmd → List String
  | SwapCmd.swapoff p => active.filter (fun q => q != p)
  | SwapCmd.swapon p => active ++ [p]
  | SwapCmd.move src dst => active.map (fun q => if q = src then dst else q)
  | _ => active

/-- Every observable activation state along a command sequence, the initial
state included. -/
def swapStates (active : List String) : List SwapCmd → List (List String)
  | [] => [active]
  | cmd :: rest => active :: swapStates (swapCmdStep active cmd) rest

/-! ## sshd hardening transaction (C5)

`config_sshd` (debian_init.py lines 764-872) backs up `/etc/ssh/sshd_config`,
mutates it with a fixed list of `sed` substitutions plus an `echo` append,
then runs verification steps.  Failures after the mutation are of two Python
kinds: commands run with `check=True` raise `subprocess.CalledProcessError`,
explicit `raise Exception(...)` raises a plain `Exception`.  The handler at
lines 862-869 restores the backup (`mv`) and restarts the service only for
`CalledProcessError`; the plain-`Exception` handler at lines 870-872 only
logs and returns `False`.
-/

/-- `sed -i 's/^PAT.*/REPL/' file`: a line starting with `pat` is replaced
wholly by `repl` (the `.*` consumes the rest of the line). -/
def sedFullReplace (pat repl : String) (c : String) : String :=
  pyJoinLines ((pySplitLines c).map fun l =>
    if pyStartsWith pat l then repl else l)

/-- `sed -i 's/^PAT/REPL/' file`: in a line starting with `pat`, only the
matched leading `pat` is replaced by `repl`, the rest of the line kept. -/
def sedHeadReplace (pat repl : String) (c : String) : String :=
  pyJoinLines ((pySplitLines c).map fun l =>
    if pyStartsWith pat l then ⟨repl.data ++ l.data.drop pat.data.length⟩ else l)

/-- The mutation `config_sshd` applies to `sshd_config`
(`config_commands`, debian_init.py lines 801-811): seven `sed`
substitutions followed by `echo 'AllowUsers root' >> sshd_config`. -/
def sshdMutate (port : Nat) (c : String) : String :=
  let c1 := sedFullReplace "#Port" ("Port " ++ toString port) c
  let c2 := sedFullReplace "#PermitRootLogin" "PermitRootLogin prohibit-password" c1
  let c3 := sedHeadReplace "PasswordAuthentication yes" "PasswordAuthentication no" c2
  let c4 := sedHeadReplace "#PasswordAuthentication yes" "PasswordAuthentication no" c3
  let c5 := sedHeadReplace "#PubkeyAuthentication yes" "PubkeyAuthentication yes" c4
  let c6 := sedHeadReplace "#ClientAliveInterval 0" "ClientAliveInterval 30" c5
  let c7 := sedHeadReplace "#ClientAliveCountMax 3" "ClientAliveCountMax 6" c6
  c7 ++ "AllowUsers root\n"

/-- The two Python error kinds relevant to the handlers of `config_sshd`. -/
inductive PyErrorKind where
  | calledProcess
  | plainExn
  deriving DecidableEq

/-- The failure points of `config_sshd` situated after the mutation of
`sshd_config`, plus the no-failure case. -/
inductive SshdFailure where
  | noFailure
  /-- key files absent after `ssh-keygen`: `raise Exception` (line 826). -/
  | keygenVerifyFails
  /-- `run("sshd -t", check=True)` fails (line 846): `CalledProcessError`. -/
  | sshdSyntaxCheckFails
  /-- `run("systemctl restart sshd", check=True)` fails (line 849). -/
  | restartFails
  /-- `systemctl is-active` output lacks `active`: `raise Exception` (line 854). -/
  | serviceNotActive
  deriving DecidableEq

/-- Which Python error each failure point raises. -/
def sshdFailureKind : SshdFailure → Option PyErrorKind
  | SshdFailure.noFailure => none
  | SshdFailure.keygenVerifyFails => some PyErrorKind.plainExn
  | SshdFailure.sshdSyntaxCheckFails => some PyErrorKind.calledProcess
  | SshdFailure.restartFails => some PyErrorKind.calledProcess
  | SshdFailure.serviceNotActive => some PyErrorKind.plainExn

/-- Outcome of one `config_sshd` run: final `sshd_config` content, reported
result, whether the backup was moved back, whether the service restart was
re-issued by the handler. -/
structure SshdOutcome where
  finalConfig : String
  success : Bool
  restoredBackup : Bool
  restartReissued : Bool
  deriving DecidableEq

/-- One run of `config_sshd` on an initial `sshd_config` content, with a
chosen failure point.  The backup (line 797) snapshots the pre-mutation
content; all modelled failure points are after the sed mutation; the
`CalledProcessError` handler (lines 862-869) restores the backup and
restarts sshd, the plain-`Exception` handler (lines 870-872) does neither. -/
def configSshdRun (orig : String) (port : Nat) (fail : SshdFailure) : SshdOutcome :=
  let backup := orig
  let mutated := sshdMutate port orig
  match sshdFailureKind fail with
  | none => ⟨mutated, true, false, false⟩
  | some PyErrorKind.calledProcess => ⟨backup, false, true, true⟩
  | some PyErrorKind.plainExn => ⟨mutated, false, false, false⟩

/-- Outcome of one `enable_bbr` run: final `/etc/sysctl.conf` content,
reported result, whether the backup was moved back. -/
structure BbrOutcome where
  finalSysctl : String
  success : Bool
  restoredBackup : Bool
  deriving DecidableEq

/-- One run of `enable_bbr` past its early-exit check (lines 910-1023).
If any step raises, the handler (lines 1017-1023) moves the backup over
`/etc/sysctl.conf` and reports failure.  Otherwise the rewrite is written;
the final `check_bbr_enabled()` validation result is only logged — the
function returns `True` either way (lines 1008-1015), with no rollback. -/
def enableBbrRun (orig : String) (raisesExn : Bool) (validateOk : Bool) : BbrOutcome :=
  if raisesExn then ⟨orig, false, true⟩
  else ⟨enableBbrRewrite orig, true, false⟩

/-! ## Filesystem model: backups and atomic writes (C6-C9)

`ConfigManager` (debian_init.py lines 413-457) manipulates files through
`cp`, `mv`, `open(...,"w")` and `os.replace`.  The filesystem is a partial
map from paths to contents.
-/

/-- A filesystem: each path maps to a file content or to nothing. -/
def Fs : Type := String → Option String

/-- Write (create or overwrite) one file. -/
def fsWrite (fs : Fs) (p c : String) : Fs :=
  fun q => if q = p then some c else fs q

/-- Remove one file. -/
def fsRemove (fs : Fs) (p : String) : Fs :=
  fun q => if q = p then none else fs q

/-- The backup name used by `ConfigManager.create_backup` (line 423):
`f"{file_path}.bak.{timestamp}"` with a seconds-resolution timestamp. -/
def backupName (path timestamp : String) : String :=
  path ++ ".bak." ++ timestamp

/-- `ConfigManager.create_backup` (lines 417-431): `None` when the path
does not exist, otherwise `cp file_path backup_path` and return the backup
path. -/
def createBackup (fs : Fs) (path timestamp : String) : Option String × Fs :=
  match fs path with
  | none => (none, fs)
  | some content =>
    (some (backupName path timestamp), fsWrite fs (backupName path timestamp) content)

/-- `ConfigManager.restore_backup` (lines 434-444): `False` when the backup
does not exist, otherwise `mv backup_path original_path` — the backup file
is moved, not copied, onto the original path. -/
def restoreBackup (fs : Fs) (backupPath originalPath : String) : Bool × Fs :=
  match fs backupPath with
  | none => (false, fs)
  | some content =>
    (true, fsWrite (fsRemove fs backupPath) originalPath content)

/-- The sibling temporary file of `ConfigManager.atomic_write` (line 449). -/
def tmpName (path : String) : String := path ++ ".tmp"

/-- Failure points of `ConfigManager.atomic_write`: the temporary-file
write can raise after any number of characters, `os.replace` can raise,
or everything succeeds. -/
inductive AtomicWriteFailure where
  | noFailure
  | writeFails (written : Nat)
  | replaceFails
  deriving DecidableEq

/-- `ConfigManager.atomic_write` (lines 447-457): write the content to
`file_path + ".tmp"`, then `os.replace` it over `file_path`.  Returns the
reported result, the final filesystem, and the list of filesystems
observable at each step (initial state, after the temporary write, after
the rename). -/
def atomicWrite (fs : Fs) (path content : String) :
    AtomicWriteFailure → Bool × Fs × List Fs
  | AtomicWriteFailure.writeFails n =>
    let fsMid := fsWrite fs (tmpName path) ⟨content.data.take n⟩
    (false, fsMid, [fs, fsMid])
  | AtomicWriteFailure.replaceFails =>
    let fsTmp := fsWrite fs (tmpName path) content
    (false, fsTmp, [fs, fsTmp])
  | AtomicWriteFailure.noFailure =>
    let fsTmp := fsWrite fs (tmpName path) content
    let fsFinal := fsWrite (fsRemove fsTmp (tmpName path)) path content
    (true, fsFinal, [fs, fsTmp, fsFinal])

/-- A one-file demonstration filesystem used to instantiate the backup
theorems on concrete inputs. -/
def demoFs : Fs :=
  fun q => if q = "/etc/demo.conf" then some "orig contents\n" else none

/-- A demonstration filesystem holding an original file and one backup of
an earlier content, used to instantiate the restore theorems. -/
def demoFsWithBackup : Fs :=
  fun q =>
    if q = "/etc/demo.conf.bak.20260101120000" then some "old contents\n"
    else if q = "/etc/demo.conf" then some "new contents\n"
    else none

/-! ## Port allocation (C10)

`config_sshd` in debian_init.py (lines 783-790) draws
`random.randint(60000, 65535)` and probes with
`socket.connect_ex(('localhost', port)) != 0` until the probe fails to
connect; `config_sshd` in install_alpine.py (lines 238-241) draws
`random.randint(60000, 65500)` and checks `netstat -ltn | grep -q :port`
until the grep fails.  Each loop is modelled over the stream of random
draws and the probe oracle.
-/

/-- `is_port_available` (debian_init.py lines 783-785): the TCP connect
probe against localhost did not connect. -/
def isPortAvailable (connectEx : Nat → Int) (port : Nat) : Bool :=
  connectEx port != 0

/-- The debian port loop (lines 787-789): return the first draw whose
connect probe fails; keep drawing otherwise.  `none` when the given stream
of draws is exhausted. -/
def allocatePort (connectEx : Nat → Int) : List Nat → Option Nat
  | [] => none
  | d :: ds => if isPortAvailable connectEx d then some d else allocatePort connectEx ds

/-- The alpine port loop (install_alpine.py lines 238-241): return the
first draw for which `netstat -ltn | grep -q :port` exits nonzero. -/
def alpineAllocatePort (netstatGrepRc : Nat → Int) : List Nat → Option Nat
  | [] => none
  | d :: ds =>
    if netstatGrepRc d != 0 then some d else alpineAllocatePort netstatGrepRc ds

/-! # Theorems

First the string and list infrastructure, then the per-component lemmas,
then the theorems settling the claims.
-/

/-! ## String basics -/

theorem string_data_inj : ∀ {s t : String}, s.data = t.data → s = t
  | ⟨_⟩, ⟨_⟩, h => congrArg String.mk h

theorem string_data_append (s t : String) : (s ++ t).data = s.data ++ t.data := rfl

theorem string_mk_data (s : String) : (⟨s.data⟩ : String) = s := rfl

theorem string_append_ne_of_ne_nil (s t : String) (h : t.data ≠ []) : s ++ t ≠ s := by
  intro he
  have hd : s.data ++ t.data = s.data := by
    have := congrArg String.data he
    simpa [string_data_append] using this
  have hlen := congrArg List.length hd
  simp [List.length_append] at hlen
  exact h (List.eq_nil_of_length_eq_zero hlen)

theorem backupName_ne_path (path timestamp : String) :
    backupName path timestamp ≠ path := by
  intro h
  have hd := congrArg (fun s : String => s.data.length) h
  simp [backupName, string_data_append, List.length_append] at hd

theorem backupName_timestamp_inj {path t1 t2 : String}
    (h : backupName path t1 = backupName path t2) : t1 = t2 := by
  have hd := congrArg String.data h
  simp only [backupName, string_data_append, List.append_assoc] at hd
  exact string_data_inj (List.append_cancel_left (List.append_cancel_left hd))

theorem tmpName_ne_path (path : String) : tmpName path ≠ path :=
  string_append_ne_of_ne_nil path ".tmp" (by decide)

/-! ## Python strip -/

theorem dropWhile_head_false (p : Char → Bool) :
    ∀ (l : List Char) (c : Char) (t : List Char), l.dropWhile p = c :: t → p c = false := by
  intro l
  induction l with
  | nil => intro c t h; simp [List.dropWhile] at h
  | cons a l ih =>
    intro c t h
    by_cases ha : p a
    · rw [List.dropWhile_cons_of_pos ha] at h
      exact ih c t h
    · rw [List.dropWhile_cons_of_neg ha] at h
      cases h
      simpa using ha

theorem dropWhile_eq_self {p : Char → Bool} {l : List Char}
    (h : ∀ c t, l = c :: t → p c = false) : l.dropWhile p = l := by
  cases l with
  | nil => rfl
  | cons c t => rw [List.dropWhile_cons_of_neg]; simp [h c t rfl]

theorem dropTrail_head (c : Char) (t : List Char) :
    dropTrailWs (c :: t) = [] ∨ ∃ r, dropTrailWs (c :: t) = c :: r := by
  rw [dropTrailWs]
  cases h : dropTrailWs t with
  | nil =>
    by_cases hc : pyWhitespace c
    · left; simp [hc]
    · right; exact ⟨[], by simp [hc]⟩
  | cons x xs => right; exact ⟨x :: xs, rfl⟩

theorem dropTrail_idem : ∀ l : List Char, dropTrailWs (dropTrailWs l) = dropTrailWs l := by
  intro l
  induction l with
  | nil => rfl
  | cons c t ih =>
    rw [dropTrailWs]
    cases h : dropTrailWs t with
    | nil =>
      by_cases hc : pyWhitespace c
      · simp [hc, dropTrailWs]
      · simp [hc, dropTrailWs]
    | cons x xs =>
      have ih' : dropTrailWs (x :: xs) = x :: xs := by rw [← h, ih]
      simp only []
      rw [dropTrailWs, ih']

theorem dropTrail_mem : ∀ {x : Char} {l : List Char}, x ∈ dropTrailWs l → x ∈ l := by
  intro x l
  induction l with
  | nil => intro h; simpa [dropTrailWs] using h
  | cons c t ih =>
    intro h
    rw [dropTrailWs] at h
    cases ht : dropTrailWs t with
    | nil =>
      rw [ht] at h
      by_cases hc : pyWhitespace c <;> simp [hc] at h
      simp [h]
    | cons y ys =>
      rw [ht] at h
      rcases List.mem_cons.mp h with h | h
      · simp [h]
      · exact List.mem_cons_of_mem c (ih (ht ▸ h))

theorem pyStripData_idem (l : List Char) : pyStripData (pyStripData l) = pyStripData l := by
  unfold pyStripData
  have hlead : (dropTrailWs (l.dropWhile pyWhitespace)).dropWhile pyWhitespace =
      dropTrailWs (l.dropWhile pyWhitespace) := by
    apply dropWhile_eq_self
    intro c t h
    cases hX : l.dropWhile pyWhitespace with
    | nil => rw [hX] at h; simp [dropTrailWs] at h
    | cons a s =>
      rw [hX] at h
      rcases dropTrail_head a s with h0 | ⟨r, hr⟩
      · rw [h0] at h; cases h
      · rw [hr] at h
        injection h with h1 h2
        rw [← h1]
        exact dropWhile_head_false pyWhitespace l a s hX
  rw [hlead, dropTrail_idem]

theorem pyStrip_idem (s : String) : pyStrip (pyStrip s) = pyStrip s := by
  unfold pyStrip
  exact congrArg String.mk (pyStripData_idem s.data)

theorem pyStripData_mem {x : Char} {l : List Char} (h : x ∈ pyStripData l) : x ∈ l := by
  unfold pyStripData at h
  exact (List.dropWhile_sublist pyWhitespace).mem (dropTrail_mem h)

theorem noNl_pyStrip {s : String} (h : noNl s) : noNl (pyStrip s) := by
  unfold noNl pyStrip at *
  intro hmem
  exact h (pyStripData_mem hmem)

/-! ## Splitting and joining lines -/

theorem splitNl_ne_nil : ∀ l : List Char, splitNlData l ≠ [] := by
  intro l
  induction l with
  | nil => simp [splitNlData]
  | cons c rest ih =>
    rw [splitNlData]
    by_cases hc : c = '\n'
    · simp [hc]
    · simp only [hc, if_false]
      cases h : splitNlData rest with
      | nil => simp
      | cons x xs => simp

theorem splitNl_mem_noNl : ∀ (l : List Char), ∀ m ∈ splitNlData l, '\n' ∉ m := by
  intro l
  induction l with
  | nil => intro m hm; simp [splitNlData] at hm; simp [hm]
  | cons c rest ih =>
    intro m hm
    rw [splitNlData] at hm
    by_cases hc : c = '\n'
    · simp only [hc, if_true, List.mem_cons] at hm
      rcases hm with hm | hm
      · simp [hm]
      · exact ih m hm
    · simp only [hc, if_false] at hm
      cases h : splitNlData rest with
      | nil => exact absurd h (splitNl_ne_nil rest)
      | cons x xs =>
        rw [h] at hm
        rcases List.mem_cons.mp hm with hm | hm
        · subst hm
          intro hmem
          rcases List.mem_cons.mp hmem with h1 | h1
          · exact hc h1.symm
          · exact ih x (h ▸ List.mem_cons_self x xs) h1
        · exact ih m (h ▸ List.mem_cons_of_mem x hm)

theorem splitNl_of_noNl : ∀ l : List Char, '\n' ∉ l → splitNlData l = [l] := by
  intro l
  induction l with
  | nil => intro _; rfl
  | cons c rest ih =>
    intro h
    have hc : ¬ c = '\n' := fun he => h (by simp [he])
    have hrest : '\n' ∉ rest := fun hm => h (List.mem_cons_of_mem c hm)
    rw [splitNlData]
    simp only [hc, if_false]
    rw [ih hrest]

theorem splitNl_append (xs rest : List Char) (h : '\n' ∉ xs) :
    splitNlData (xs ++ '\n' :: rest) = xs :: splitNlData rest := by
  induction xs with
  | nil => simp [splitNlData]
  | cons c t ih =>
    have hc : ¬ c = '\n' := fun he => h (by simp [he])
    have ht : '\n' ∉ t := fun hm => h (List.mem_cons_of_mem c hm)
    rw [List.cons_append, splitNlData]
    simp only [hc, if_false]
    rw [ih ht]

theorem joinNl_append (xs ys : List (List Char)) (hx : xs ≠ []) (hy : ys ≠ []) :
    joinNlData (xs ++ ys) = joinNlData xs ++ '\n' :: joinNlData ys := by
  induction xs with
  | nil => exact absurd rfl hx
  | cons x xs ih =>
    cases xs with
    | nil =>
      cases ys with
      | nil => exact absurd rfl hy
      | cons y ys => simp [joinNlData]
    | cons x2 xs2 =>
      have ih' := ih (by simp)
      simp only [List.cons_append, joinNlData, List.append_eq]
      rw [← List.cons_append x2 xs2 ys, ih']
      simp [List.append_assoc]

theorem splitNl_joinNl : ∀ xs : List (List Char), xs ≠ [] → (∀ x ∈ xs, '\n' ∉ x) →
    splitNlData (joinNlData xs) = xs := by
  intro xs
  induction xs with
  | nil => intro h _; exact absurd rfl h
  | cons x xs ih =>
    intro _ hmem
    cases xs with
    | nil =>
      show splitNlData (joinNlData [x]) = [x]
      rw [joinNlData]
      exact splitNl_of_noNl x (hmem x (List.mem_cons_self x []))
    | cons y ys =>
      simp only [joinNlData]
      rw [splitNl_append x _ (hmem x (List.mem_cons_self x (y :: ys)))]
      rw [ih (by simp) (fun z hz => hmem z (List.mem_cons_of_mem x hz))]

theorem pySplitLines_ne_nil (s : String) : pySplitLines s ≠ [] := by
  unfold pySplitLines
  intro h
  exact splitNl_ne_nil s.data (List.map_eq_nil.mp h)

theorem pySplitLines_noNl (s : String) : ∀ l ∈ pySplitLines s, noNl l := by
  intro l hl
  unfold pySplitLines at hl
  rcases List.mem_map.mp hl with ⟨d, hd, he⟩
  unfold noNl
  rw [← he]
  exact splitNl_mem_noNl s.data d hd

theorem pySplit_pyJoin (ls : List String) (hne : ls ≠ []) (h : ∀ l ∈ ls, noNl l) :
    pySplitLines (pyJoinLines ls) = ls := by
  unfold pySplitLines pyJoinLines
  rw [string_mk_data]
  rw [splitNl_joinNl (ls.map String.data) (by simpa using hne)
    (fun x hx => by
      rcases List.mem_map.mp hx with ⟨l, hl, he⟩
      rw [← he]
      exact h l hl)]
  rw [List.map_map]
  have hid : ((fun d => (⟨d⟩ : String)) ∘ String.data) = id := funext fun s => rfl
  rw [hid, List.map_id]

/-! ## The cleaning pass -/

theorem cleanAux_append (step : Bool → String → Bool × Option String) :
    ∀ (xs : List String) (s : Bool) (ys : List String),
    cleanAux step s (xs ++ ys) =
      cleanAux step s xs ++ cleanAux step (cleanState step s xs) ys := by
  intro xs
  induction xs with
  | nil => intro s ys; rfl
  | cons l xs ih =>
    intro s ys
    rw [List.cons_append, cleanAux, cleanAux, cleanState]
    cases (step s l).2 with
    | none => exact ih (step s l).1 ys
    | some o => rw [ih (step s l).1 ys, List.cons_append]

theorem cleanAux_fixed (step : Bool → String → Bool × Option String) :
    ∀ ls : List String, (∀ l ∈ ls, stepFix step l) →
    cleanAux step false ls = ls ∧ cleanState step false ls = false := by
  intro ls
  induction ls with
  | nil => intro _; exact ⟨rfl, rfl⟩
  | cons l ls ih =>
    intro h
    have hl : step false l = (false, some l) := h l (List.mem_cons_self l ls)
    have ih' := ih fun x hx => h x (List.mem_cons_of_mem l hx)
    constructor
    · rw [cleanAux, hl]
      simpa using congrArg (l :: ·) ih'.1
    · rw [cleanState, hl]
      exact ih'.2

theorem cleanAux_out (step : Bool → String → Bool × Option String)
    (P Q : String → Prop)
    (hstep : ∀ s l, Q l → ∀ s' o, step s l = (s', some o) → P o) :
    ∀ (ls : List String) (s : Bool), (∀ l ∈ ls, Q l) →
    ∀ o ∈ cleanAux step s ls, P o := by
  intro ls
  induction ls with
  | nil => intro s _ o ho; simp [cleanAux] at ho
  | cons l ls ih =>
    intro s hQ o ho
    rw [cleanAux] at ho
    cases hsl : (step s l).2 with
    | none =>
      rw [hsl] at ho
      exact ih (step s l).1 (fun x hx => hQ x (List.mem_cons_of_mem l hx)) o ho
    | some u =>
      rw [hsl] at ho
      rcases List.mem_cons.mp ho with he | hm
      · subst he
        exact hstep s l (hQ l (List.mem_cons_self l ls)) (step s l).1 o
          (by rw [← hsl])
      · exact ih (step s l).1 (fun x hx => hQ x (List.mem_cons_of_mem l hx)) o hm

/-! ## Properties of the `enable_bbr` step function -/

theorem bbrStep_false_of_not_marker {l : String}
    (hm : isBbrMarkerLine (pyStrip l) = false) :
    bbrStep false l = (false, some (pyStrip l)) := by
  simp [bbrStep, hm]

theorem bbrStep_out {s : Bool} {l : String} {s' : Bool} {o : String}
    (h : bbrStep s l = (s', some o)) :
    o = pyStrip l ∧ isBbrMarkerLine (pyStrip l) = false := by
  by_cases hm : isBbrMarkerLine (pyStrip l)
  · simp [bbrStep, hm] at h
  · refine ⟨?_, by simp [hm]⟩
    simp only [bbrStep, hm] at h
    by_cases h2 : s && (pyStartsWith "net.core.default_qdisc" (pyStrip l) ||
        pyStartsWith "net.ipv4.tcp_congestion_control" (pyStrip l))
    · simp [h2] at h
    · simp only [h2, Bool.false_eq_true, if_false] at h
      by_cases h3 : s && ((pyStrip l).isEmpty || pyStartsWith "#" (pyStrip l))
      · simp only [h3, if_true] at h
        by_cases h4 : (pyStrip l).isEmpty
        · simp [h4] at h
        · simp only [h4, Bool.false_eq_true, if_false] at h
          have h5 := congrArg Prod.snd h
          simp at h5
          exact h5.symm
      · simp only [h3, Bool.false_eq_true, if_false] at h
        have h5 := congrArg Prod.snd h
        simp at h5
        exact h5.symm

theorem bbrStep_fix {o : String} (hstrip : pyStrip o = o)
    (hm : isBbrMarkerLine o = false) : stepFix bbrStep o := by
  unfold stepFix
  have := bbrStep_false_of_not_marker (show isBbrMarkerLine (pyStrip o) = false by
    rw [hstrip]; exact hm)
  rw [hstrip] at this
  exact this

theorem bbrStep_fix_not_marker {o : String} (h : stepFix bbrStep o) :
    isBbrMarkerLine (pyStrip o) = false := by
  have h' : bbrStep false o = (false, some o) := h
  rcases bbrStep_out h' with ⟨_, hm⟩
  exact hm

/-! ## Properties of the `configure_ip_priority` step function -/

theorem ipStep_false_of_not_marker {l : String}
    (hm : isIpMarkerLine (pyStrip l) = false) :
    ipStep false l = (false, some l) := by
  simp [ipStep, hm]

theorem ipStep_out {s : Bool} {l : String} {s' : Bool} {o : String}
    (h : ipStep s l = (s', some o)) :
    o = l ∧ isIpMarkerLine (pyStrip l) = false := by
  by_cases hm : isIpMarkerLine (pyStrip l)
  · simp [ipStep, hm] at h
  · refine ⟨?_, by simp [hm]⟩
    simp only [ipStep, hm] at h
    by_cases h2 : s && (pyStartsWith "precedence" (pyStrip l) ||
        pyStartsWith "label" (pyStrip l) || (pyStrip l).isEmpty ||
        pyStartsWith "#" (pyStrip l))
    · simp only [h2, if_true] at h
      by_cases h3 : s && !(pyStrip l).isEmpty && !pyStartsWith "#" (pyStrip l) &&
          !pyStartsWith "precedence" (pyStrip l) && !pyStartsWith "label" (pyStrip l)
      · simp only [h3, if_true] at h
        have h5 := congrArg Prod.snd h
        simp at h5
        exact h5.symm
      · simp [h3] at h
    · simp only [h2, Bool.false_eq_true, if_false] at h
      have h5 := congrArg Prod.snd h
      simp at h5
      exact h5.symm

theorem ipStep_fix {o : String} (hm : isIpMarkerLine (pyStrip o) = false) :
    stepFix ipStep o :=
  ipStep_false_of_not_marker hm

/-! ## Output lines of the cleaning passes -/

theorem bbrClean_props (c : String) :
    ∀ o ∈ cleanAux bbrStep false (pySplitLines c),
      (stepFix bbrStep o ∧ noNl o) ∧
      ∃ l, l ∈ pySplitLines c ∧ o = pyStrip l := by
  refine cleanAux_out bbrStep
    (fun o => (stepFix bbrStep o ∧ noNl o) ∧ ∃ l, l ∈ pySplitLines c ∧ o = pyStrip l)
    (fun l => l ∈ pySplitLines c ∧ noNl l) ?_ (pySplitLines c) false ?_
  · intro s l hQ s' o h
    rcases bbrStep_out h with ⟨ho, hm⟩
    subst ho
    exact ⟨⟨bbrStep_fix (pyStrip_idem l) hm, noNl_pyStrip hQ.2⟩, l, hQ.1, rfl⟩
  · exact fun l hl => ⟨hl, pySplitLines_noNl c l hl⟩

theorem ipClean_props (c : String) :
    ∀ o ∈ cleanAux ipStep false (pySplitLines c),
      (stepFix ipStep o ∧ noNl o) := by
  refine cleanAux_out ipStep
    (fun o => stepFix ipStep o ∧ noNl o)
    (fun l => noNl l) ?_ (pySplitLines c) false ?_
  · intro s l hQ s' o h
    rcases ipStep_out h with ⟨ho, hm⟩
    subst ho
    exact ⟨ipStep_fix hm, hQ⟩
  · exact fun l hl => pySplitLines_noNl c l hl

/-! ## Decomposition of a rewrite's output into lines -/

theorem padNonempty_ne_nil (K : List String) : padNonempty K ≠ [] := by
  unfold padNonempty
  by_cases h : K = [] <;> simp [h]

theorem pyJoin_pad (K : List String) :
    pyJoinLines (padNonempty K) = pyJoinLines K := by
  unfold padNonempty
  by_cases h : K = [] <;> simp [h]
  rfl

theorem padNonempty_mem (P : String → Prop) {K : List String}
    (hK : ∀ l ∈ K, P l) (h0 : P "") : ∀ l ∈ padNonempty K, P l := by
  unfold padNonempty
  by_cases h : K = [] <;> simp [h]
  · exact h0
  · exact hK

theorem rewrite_join (K T : List String) (hT : T ≠ []) :
    pyJoinLines K ++ ("\n" ++ pyJoinLines T) ++ "\n" =
      pyJoinLines (padNonempty K ++ T ++ [""]) := by
  apply string_data_inj
  simp only [string_data_append, pyJoinLines, string_mk_data, List.map_append]
  have hTd : T.map String.data ≠ [] := by simpa using hT
  by_cases hK : K = []
  · subst hK
    rw [show padNonempty ([] : List String) = [""] from rfl]
    have h1 : joinNlData (([""] : List String).map String.data ++
        (T.map String.data ++ ([""] : List String).map String.data)) =
        joinNlData (([""] : List String).map String.data) ++
          '\n' :: joinNlData (T.map String.data ++ ([""] : List String).map String.data) := by
      apply joinNl_append <;> simp
    have h2 : joinNlData (T.map String.data ++ ([""] : List String).map String.data) =
        joinNlData (T.map String.data) ++ '\n' :: joinNlData (([""] : List String).map String.data) :=
      joinNl_append _ _ hTd (by simp)
    simp only [List.map_append] at *
    simp only [List.append_assoc]
    rw [h1, h2]
    simp [joinNlData]
  · have hKd : K.map String.data ≠ [] := by simpa using hK
    rw [show padNonempty K = K by unfold padNonempty; simp [hK]]
    have h1 : joinNlData (K.map String.data ++
        (T.map String.data ++ ([""] : List String).map String.data)) =
        joinNlData (K.map String.data) ++
          '\n' :: joinNlData (T.map String.data ++ ([""] : List String).map String.data) := by
      apply joinNl_append _ _ hKd (by simp)
    have h2 : joinNlData (T.map String.data ++ ([""] : List String).map String.data) =
        joinNlData (T.map String.data) ++ '\n' :: joinNlData (([""] : List String).map String.data) :=
      joinNl_append _ _ hTd (by simp)
    simp only [List.append_assoc]
    rw [h1, h2]
    simp [joinNlData]

theorem enableBbrRewrite_eq_join (c : String) :
    enableBbrRewrite c =
      pyJoinLines (padNonempty (cleanAux bbrStep false (pySplitLines c)) ++
        bbrTailLines ++ [""]) := by
  unfold enableBbrRewrite
  rw [show bbrConfigBlock = "\n" ++ pyJoinLines bbrTailLines by decide]
  rw [← rewrite_join _ bbrTailLines (by decide)]

theorem enableBbrRewrite_lines (c : String) :
    pySplitLines (enableBbrRewrite c) =
      padNonempty (cleanAux bbrStep false (pySplitLines c)) ++ bbrTailLines ++ [""] := by
  rw [enableBbrRewrite_eq_join]
  apply pySplit_pyJoin
  · intro h
    exact padNonempty_ne_nil _ (List.append_eq_nil.mp (List.append_eq_nil.mp h).1).1
  · intro l hl
    simp only [List.append_assoc, List.mem_append] at hl
    rcases hl with hl | hl | hl
    · exact padNonempty_mem noNl (fun o ho => ((bbrClean_props c o ho).1).2) (by decide) l hl
    · fin_cases hl <;> decide
    · fin_cases hl; decide

theorem configureIpRewrite_eq_join (block : String) (T : List String)
    (hblock : block = "\n" ++ pyJoinLines T) (hT : T ≠ []) (c : String) :
    configureIpRewrite block c =
      pyJoinLines (padNonempty (cleanAux ipStep false (pySplitLines c)) ++ T ++ [""]) := by
  unfold configureIpRewrite
  rw [hblock, ← rewrite_join _ T hT]

theorem configureIpRewrite_lines (block : String) (T : List String)
    (hblock : block = "\n" ++ pyJoinLines T) (hT : T ≠ [])
    (hTnl : ∀ t ∈ T, noNl t) (c : String) :
    pySplitLines (configureIpRewrite block c) =
      padNonempty (cleanAux ipStep false (pySplitLines c)) ++ T ++ [""] := by
  rw [configureIpRewrite_eq_join block T hblock hT]
  apply pySplit_pyJoin
  · intro h
    exact padNonempty_ne_nil _ (List.append_eq_nil.mp (List.append_eq_nil.mp h).1).1
  · intro l hl
    simp only [List.append_assoc, List.mem_append] at hl
    rcases hl with hl | hl | hl
    · exact padNonempty_mem noNl (fun o ho => (ipClean_props c o ho).2) (by decide) l hl
    · exact hTnl l hl
    · fin_cases hl; decide

/-! ## Idempotence of the rewrites -/

theorem enableBbrRewrite_idem (c : String) :
    enableBbrRewrite (enableBbrRewrite c) = enableBbrRewrite c := by
  conv_lhs => rw [enableBbrRewrite]
  rw [enableBbrRewrite_lines c]
  have hfix : ∀ l ∈ padNonempty (cleanAux bbrStep false (pySplitLines c)),
      stepFix bbrStep l :=
    padNonempty_mem (stepFix bbrStep) (fun o ho => ((bbrClean_props c o ho).1).1)
      (bbrStep_fix (by decide) (by decide))
  rw [List.append_assoc, cleanAux_append]
  rcases cleanAux_fixed bbrStep _ hfix with ⟨h1, h2⟩
  rw [h1, h2]
  rw [show cleanAux bbrStep false (bbrTailLines ++ [""]) = [] by decide]
  rw [List.append_nil, pyJoin_pad]
  rfl

theorem configureIpRewrite_idem (block : String) (T : List String)
    (hblock : block = "\n" ++ pyJoinLines T) (hT : T ≠ [])
    (hTnl : ∀ t ∈ T, noNl t)
    (htail : cleanAux ipStep false (T ++ [""]) = []) (c : String) :
    configureIpRewrite block (configureIpRewrite block c) = configureIpRewrite block c := by
  conv_lhs => rw [configureIpRewrite]
  rw [configureIpRewrite_lines block T hblock hT hTnl c]
  have hfix : ∀ l ∈ padNonempty (cleanAux ipStep false (pySplitLines c)),
      stepFix ipStep l :=
    padNonempty_mem (stepFix ipStep) (fun o ho => (ipClean_props c o ho).1)
      (ipStep_fix (by decide))
  rw [List.append_assoc, cleanAux_append]
  rcases cleanAux_fixed ipStep _ hfix with ⟨h1, h2⟩
  rw [h1, h2, htail]
  rw [List.append_nil, pyJoin_pad]
  rfl

/-! ## Counting markers and directives in a rewrite's output -/

theorem bbrMarkerLineCount_rewrite (c : String) :
    bbrMarkerLineCount (enableBbrRewrite c) = 1 := by
  unfold bbrMarkerLineCount
  rw [enableBbrRewrite_lines c]
  rw [List.append_assoc, List.filter_append]
  have hpad : (padNonempty (cleanAux bbrStep false (pySplitLines c))).filter
      (fun l => isBbrMarkerLine (pyStrip l)) = [] := by
    rw [List.filter_eq_nil]
    intro o ho
    have hmf : isBbrMarkerLine (pyStrip o) = false := by
      refine padNonempty_mem (fun o => isBbrMarkerLine (pyStrip o) = false)
        (fun u hu => ?_) (by decide) o ho
      exact bbrStep_fix_not_marker ((bbrClean_props c u hu).1).1
    simp [hmf]
  rw [hpad]
  decide

theorem exactLineCount_rewrite_of_legacyFree (c : String) (target : String)
    (hleg : bbrLegacyFree c = true)
    (hdir : pyStartsWith "net.core.default_qdisc" target = true ∨
      pyStartsWith "net.ipv4.tcp_congestion_control" target = true)
    (hstrip : pyStrip target = target) :
    exactLineCount target (enableBbrRewrite c) =
      (bbrTailLines.filter (fun l => l = target)).length := by
  unfold exactLineCount
  rw [enableBbrRewrite_lines c]
  rw [List.append_assoc, List.filter_append, List.filter_append]
  have hne : ¬ ("" : String) = target := by
    intro hcon
    rw [← hcon] at hdir
    rcases hdir with hd | hd
    · exact absurd hd (by decide)
    · exact absurd hd (by decide)
  have hpad : (padNonempty (cleanAux bbrStep false (pySplitLines c))).filter
      (fun l => l = target) = [] := by
    rw [List.filter_eq_nil]
    intro o ho
    simp only [decide_eq_true_eq]
    refine padNonempty_mem (fun o => ¬ o = target) (fun u hu => ?_) hne o ho
    rcases (bbrClean_props c u hu).2 with ⟨l, hl, he⟩
    intro hcon
    have hfree := (List.all_eq_true.mp hleg) l hl
    subst hcon
    rw [he] at hdir
    rcases hdir with hd | hd <;> rw [hd] at hfree <;> simp at hfree
  rw [hpad]
  simp [hne]

/-! ## Histories of applications -/

theorem runFileOps_last_apply (ops : List FileOp) :
    ops.getLast? = some FileOp.applyBbr →
    ∀ c : String, ∃ d, runFileOps c ops = enableBbrRewrite d := by
  induction ops with
  | nil => intro h; cases h
  | cons op rest ih =>
    intro h c
    cases rest with
    | nil =>
      have : op = FileOp.applyBbr := by
        simpa [List.getLast?] using h
      subst this
      exact ⟨c, rfl⟩
    | cons op2 rest2 =>
      have h2 : (op2 :: rest2).getLast? = some FileOp.applyBbr := by
        rwa [List.getLast?_cons_cons] at h
      cases op with
      | applyBbr => exact ih h2 (enableBbrRewrite c)
      | edit g => exact ih h2 (g c)

theorem iterateBbr_eq_rewrite (n : Nat) :
    ∀ c : String, iterateBbr (n + 1) c = enableBbrRewrite c := by
  induction n with
  | zero => intro c; rfl
  | succ n ih =>
    intro c
    show iterateBbr (n + 1) (enableBbrRewrite c) = enableBbrRewrite c
    rw [ih (enableBbrRewrite c), enableBbrRewrite_idem]

/-! ## Marker-free inputs: the cleaning pass keeps every line -/

theorem cleanAux_no_marker :
    ∀ ls : List String, (∀ l ∈ ls, isBbrMarkerLine (pyStrip l) = false) →
    cleanAux bbrStep false ls = ls.map pyStrip := by
  intro ls
  induction ls with
  | nil => intro _; rfl
  | cons l ls ih =>
    intro h
    have hl := bbrStep_false_of_not_marker (h l (List.mem_cons_self l ls))
    rw [cleanAux, hl, List.map_cons]
    simpa using congrArg (pyStrip l :: ·)
      (ih fun x hx => h x (List.mem_cons_of_mem l hx))

/-! ## Port allocation loops -/

theorem allocatePort_spec (connectEx : Nat → Int) :
    ∀ (draws : List Nat) (p : Nat), allocatePort connectEx draws = some p →
    p ∈ draws ∧ isPortAvailable connectEx p = true := by
  intro draws
  induction draws with
  | nil => intro p h; cases h
  | cons d ds ih =>
    intro p h
    rw [allocatePort] at h
    by_cases hd : isPortAvailable connectEx d
    · rw [if_pos hd] at h
      cases h
      exact ⟨List.mem_cons_self d ds, hd⟩
    · rw [if_neg hd] at h
      rcases ih p h with ⟨h1, h2⟩
      exact ⟨List.mem_cons_of_mem d h1, h2⟩

theorem alpineAllocatePort_spec (netstatGrepRc : Nat → Int) :
    ∀ (draws : List Nat) (q : Nat), alpineAllocatePort netstatGrepRc draws = some q →
    q ∈ draws ∧ (netstatGrepRc q != 0) = true := by
  intro draws
  induction draws with
  | nil => intro q h; cases h
  | cons d ds ih =>
    intro q h
    rw [alpineAllocatePort] at h
    by_cases hd : (netstatGrepRc d != 0) = true
    · rw [if_pos hd] at h
      cases h
      exact ⟨List.mem_cons_self d ds, hd⟩
    · rw [if_neg hd] at h
      rcases ih q h with ⟨h1, h2⟩
      exact ⟨List.mem_cons_of_mem d h1, h2⟩

/-! # Claims -/

/-- C1 counterexample: resizing an existing file-backed swap area from
`/swapfile`, the trace of active-swap states contains the empty state —
the host does pass through an instant with zero active swap, because
`increase_swap` runs `swapoff` on the old area before `swapon` on the new
one. -/
theorem swap_resize_zero_active_window_cex :
    [] ∈ swapStates ["/swapfile"] (fileResizeCmds "/swapfile") := by
  decide

/-- C1 (amended): during a file-backed swap resize the old area is
deactivated strictly before the replacement is activated: the command list
runs `swapoff existing` at position 3 and `swapon /swapfile.tmp` at
position 4, and the activation trace passes through the empty state
between them before ending with one active area at the original path. -/
theorem swap_resize_deactivates_before_activating (e : String) :
    fileResizeCmds e =
      [SwapCmd.fallocate swapTmpFile, SwapCmd.chmod swapTmpFile,
       SwapCmd.mkswap swapTmpFile, SwapCmd.swapoff e, SwapCmd.swapon swapTmpFile,
       SwapCmd.move swapTmpFile e, SwapCmd.updateFstab] ∧
    swapStates [e] (fileResizeCmds e) =
      [[e], [e], [e], [e], [], [swapTmpFile], [e], [e]] := by
  constructor
  · rfl
  · simp [fileResizeCmds, swapStates, swapCmdStep]

/-- C2 counterexample: the second application of the `enable_bbr`
clean-then-append step does perform a write — the code always opens the
file for writing, there is no byte-identity check skipping it. -/
theorem second_application_writes_cex :
    enableBbrWrites (enableBbrRewrite "") ≠ [] := by
  simp [enableBbrWrites]

/-- C2 (amended): the managed-block rewrites of `enable_bbr` and
`configure_ip_priority` are byte-idempotent — a second application with the
same directives produces exactly the bytes of the first — but the second
application still performs one write (of those identical bytes): the code
never skips the write. -/
theorem managed_block_rewrite_idempotent (c : String) :
    enableBbrRewrite (enableBbrRewrite c) = enableBbrRewrite c ∧
    enableBbrWrites (enableBbrRewrite c) = [(sysctlConfPath, enableBbrRewrite c)] ∧
    configureIpRewrite ipv4PriorityBlock (configureIpRewrite ipv4PriorityBlock c) =
      configureIpRewrite ipv4PriorityBlock c ∧
    configureIpRewrite ipv6PriorityBlock (configureIpRewrite ipv6PriorityBlock c) =
      configureIpRewrite ipv6PriorityBlock c := by
  refine ⟨enableBbrRewrite_idem c, ?_, ?_, ?_⟩
  · unfold enableBbrWrites
    rw [enableBbrRewrite_idem c]
  · exact configureIpRewrite_idem ipv4PriorityBlock ipv4TailLines (by decide)
      (by decide) (by decide) (by decide) c
  · exact configureIpRewrite_idem ipv6PriorityBlock ipv6TailLines (by decide)
      (by decide) (by decide) (by decide) c

/-- C3 counterexample: one application of the `enable_bbr` rewrite to a
file holding an unmarked `net.ipv4.tcp_congestion_control=bbr` line leaves
two copies of that owned directive line, not exactly one. -/
theorem reapplication_duplicate_directive_cex :
    exactLineCount "net.ipv4.tcp_congestion_control=bbr"
      (enableBbrRewrite "net.ipv4.tcp_congestion_control=bbr") = 2 := by
  decide

/-- C3 (amended): after any history of operations whose last step is an
application of the `enable_bbr` rewrite — arbitrary other edits interleaved
— the file holds exactly one marker line; and when the initial content has
no unmarked directive lines, any number of consecutive re-applications
leaves exactly one copy of each owned directive line.  (An unmarked
directive line in the input survives the rewrite and duplicates the owned
directive, which is what the counterexample exhibits.) -/
theorem single_block_invariant_amended (c : String) (ops : List FileOp) (n : Nat)
    (hlast : ops.getLast? = some FileOp.applyBbr)
    (hleg : bbrLegacyFree c = true) :
    bbrMarkerLineCount (runFileOps c ops) = 1 ∧
    bbrMarkerLineCount (iterateBbr (n + 1) c) = 1 ∧
    exactLineCount "net.core.default_qdisc=fq" (iterateBbr (n + 1) c) = 1 ∧
    exactLineCount "net.ipv4.tcp_congestion_control=bbr" (iterateBbr (n + 1) c) = 1 := by
  refine ⟨?_, ?_, ?_, ?_⟩
  · rcases runFileOps_last_apply ops hlast c with ⟨d, hd⟩
    rw [hd]
    exact bbrMarkerLineCount_rewrite d
  · rw [iterateBbr_eq_rewrite n c]
    exact bbrMarkerLineCount_rewrite c
  · rw [iterateBbr_eq_rewrite n c]
    rw [exactLineCount_rewrite_of_legacyFree c _ hleg (Or.inl (by decide)) (by decide)]
    decide
  · rw [iterateBbr_eq_rewrite n c]
    rw [exactLineCount_rewrite_of_legacyFree c _ hleg (Or.inr (by decide)) (by decide)]
    decide

/-- C3 witness: the amended invariant at a concrete marker-free,
legacy-free content and the one-application history. -/
theorem single_block_invariant_witness :
    ([FileOp.applyBbr] : List FileOp).getLast? = some FileOp.applyBbr ∧
    bbrLegacyFree "# some config" = true ∧
    (bbrMarkerLineCount (runFileOps "# some config" [FileOp.applyBbr]) = 1 ∧
     bbrMarkerLineCount (iterateBbr 1 "# some config") = 1 ∧
     exactLineCount "net.core.default_qdisc=fq" (iterateBbr 1 "# some config") = 1 ∧
     exactLineCount "net.ipv4.tcp_congestion_control=bbr" (iterateBbr 1 "# some config") = 1) :=
  ⟨rfl, by decide,
   single_block_invariant_amended "# some config" [FileOp.applyBbr] 0 rfl (by decide)⟩

/-- C4 counterexample: on a file holding the legacy (unmarked) BBR pair,
the rewrite keeps the legacy lines, so two
`net.ipv4.tcp_congestion_control=bbr` lines remain — the claim that legacy
directive lines are removed is false. -/
theorem legacy_directive_not_removed_cex :
    exactLineCount "net.ipv4.tcp_congestion_control=bbr"
      (enableBbrRewrite "net.core.default_qdisc=fq\nnet.ipv4.tcp_congestion_control=bbr") = 2 := by
  decide

/-- C4 (amended): the cleaning pass removes directive lines only inside a
marker-introduced section.  On marker-free input every line is kept
(whitespace-stripped) and the canonical block is appended after it: the
output is exactly the stripped input lines followed by the marked block, so
one canonical marked block exists, but pre-existing unmarked directive
lines — legacy variants included — survive and duplicate the owned
directives. -/
theorem legacy_lines_preserved_amended (c : String)
    (hnm : (pySplitLines c).all (fun l => !isBbrMarkerLine (pyStrip l)) = true) :
    pySplitLines (enableBbrRewrite c) =
      (pySplitLines c).map pyStrip ++ bbrTailLines ++ [""] ∧
    bbrMarkerLineCount (enableBbrRewrite c) = 1 := by
  have hconv : ∀ l ∈ pySplitLines c, isBbrMarkerLine (pyStrip l) = false := by
    intro l hl
    have := List.all_eq_true.mp hnm l hl
    simpa using this
  constructor
  · rw [enableBbrRewrite_lines c, cleanAux_no_marker _ hconv]
    have hne : (pySplitLines c).map pyStrip ≠ [] := by
      simp only [ne_eq, List.map_eq_nil_iff]
      exact pySplitLines_ne_nil c
    rw [show padNonempty ((pySplitLines c).map pyStrip) = (pySplitLines c).map pyStrip by
      unfold padNonempty; simp [hne]]
  · exact bbrMarkerLineCount_rewrite c

/-- C4 witness: the amended statement at a concrete file holding exactly
the legacy unmarked BBR pair. -/
theorem legacy_lines_preserved_witness :
    ((pySplitLines "net.core.default_qdisc=fq\nnet.ipv4.tcp_congestion_control=bbr").all
      (fun l => !isBbrMarkerLine (pyStrip l)) = true) ∧
    (pySplitLines (enableBbrRewrite "net.core.default_qdisc=fq\nnet.ipv4.tcp_congestion_control=bbr") =
      (pySplitLines "net.core.default_qdisc=fq\nnet.ipv4.tcp_congestion_control=bbr").map pyStrip ++
        bbrTailLines ++ [""] ∧
     bbrMarkerLineCount
      (enableBbrRewrite "net.core.default_qdisc=fq\nnet.ipv4.tcp_congestion_control=bbr") = 1) :=
  ⟨by decide,
   legacy_lines_preserved_amended "net.core.default_qdisc=fq\nnet.ipv4.tcp_congestion_control=bbr"
     (by decide)⟩

/-- C5 counterexample: when the post-restart status check fails —
`raise Exception("SSH服务启动失败")`, a plain `Exception` — `config_sshd`
reports failure but does not restore the backup: the mutated
`sshd_config` is left in place, contradicting the claim that every
mutate/validate failure restores the pre-mutation backup. -/
theorem plain_exception_no_rollback_cex :
    (configSshdRun "#Port 22\nPasswordAuthentication yes\n" 60001
      SshdFailure.serviceNotActive).restoredBackup = false ∧
    (configSshdRun "#Port 22\nPasswordAuthentication yes\n" 60001
      SshdFailure.serviceNotActive).finalConfig ≠
      "#Port 22\nPasswordAuthentication yes\n" := by
  constructor
  · rfl
  · decide

/-- C5 (amended): rollback is keyed on the Python exception class, not on
failure as such.  A failure raising `CalledProcessError` — the `sshd -t`
syntax check included — restores the pre-mutation backup onto
`sshd_config`, re-issues the service restart and reports failure; a
failure raising a plain `Exception` (key verification, the service status
check) reports failure with the mutated file left in place; and in
`enable_bbr` an exception restores the backup, but a false validation
result is reported as success with no rollback at all. -/
theorem rollback_on_process_error_amended (orig : String) (port : Nat)
    (fail : SshdFailure) (validateOk : Bool)
    (hproc : sshdFailureKind fail = some PyErrorKind.calledProcess) :
    configSshdRun orig port fail = ⟨orig, false, true, true⟩ ∧
    configSshdRun orig port SshdFailure.serviceNotActive =
      ⟨sshdMutate port orig, false, false, false⟩ ∧
    configSshdRun orig port SshdFailure.keygenVerifyFails =
      ⟨sshdMutate port orig, false, false, false⟩ ∧
    enableBbrRun orig true validateOk = ⟨orig, false, true⟩ ∧
    enableBbrRun orig false false = ⟨enableBbrRewrite orig, true, false⟩ := by
  refine ⟨?_, rfl, rfl, rfl, rfl⟩
  unfold configSshdRun
  rw [hproc]

/-- C5 witness: the amended statement at the `sshd -t` syntax-check
failure on a concrete configuration. -/
theorem rollback_on_process_error_witness :
    sshdFailureKind SshdFailure.sshdSyntaxCheckFails = some PyErrorKind.calledProcess ∧
    (configSshdRun "#Port 22\n" 60000 SshdFailure.sshdSyntaxCheckFails =
      ⟨"#Port 22\n", false, true, true⟩ ∧
     configSshdRun "#Port 22\n" 60000 SshdFailure.serviceNotActive =
      ⟨sshdMutate 60000 "#Port 22\n", false, false, false⟩ ∧
     configSshdRun "#Port 22\n" 60000 SshdFailure.keygenVerifyFails =
      ⟨sshdMutate 60000 "#Port 22\n", false, false, false⟩ ∧
     enableBbrRun "#Port 22\n" true true = ⟨"#Port 22\n", false, true⟩ ∧
     enableBbrRun "#Port 22\n" false false =
      ⟨enableBbrRewrite "#Port 22\n", true, false⟩) :=
  ⟨rfl, rollback_on_process_error_amended "#Port 22\n" 60000
    SshdFailure.sshdSyntaxCheckFails true rfl⟩

/-- C6: backing up a file, arbitrarily overwriting it, then restoring the
backup reproduces the original pre-backup bytes exactly at the path. -/
theorem backup_roundtrip (fs : Fs) (path timestamp origContent newContent : String)
    (hexists : fs path = some origContent) :
    ((restoreBackup
        (fsWrite (createBackup fs path timestamp).2 path newContent)
        (backupName path timestamp) path).2) path = some origContent := by
  have hne := backupName_ne_path path timestamp
  simp [createBackup, hexists, restoreBackup, fsWrite, fsRemove, hne]

/-- C6 witness: the round trip on a concrete one-file filesystem. -/
theorem backup_roundtrip_witness :
    demoFs "/etc/demo.conf" = some "orig contents\n" ∧
    ((restoreBackup
        (fsWrite (createBackup demoFs "/etc/demo.conf" "20260101120000").2
          "/etc/demo.conf" "mutated\n")
        (backupName "/etc/demo.conf" "20260101120000") "/etc/demo.conf").2)
      "/etc/demo.conf" = some "orig contents\n" :=
  ⟨by decide,
   backup_roundtrip demoFs "/etc/demo.conf" "20260101120000" "orig contents\n"
     "mutated\n" (by decide)⟩

/-- C7 counterexample: restore does not copy the backup — after restoring,
the backup path no longer exists (`mv`), and a second restore reports
failure, contradicting the claim that restore copies the payload through
the atomic writer. -/
theorem restore_consumes_backup_cex :
    (restoreBackup demoFsWithBackup "/etc/demo.conf.bak.20260101120000"
      "/etc/demo.conf").2 "/etc/demo.conf.bak.20260101120000" = none ∧
    (restoreBackup
      ((restoreBackup demoFsWithBackup "/etc/demo.conf.bak.20260101120000"
        "/etc/demo.conf").2)
      "/etc/demo.conf.bak.20260101120000" "/etc/demo.conf").1 = false := by
  decide

/-- C7 (amended): restore moves — not copies — the backup payload onto the
original path via `mv`, consuming the backup file; restoring twice still
yields the same final content at the original path as restoring once: the
second restore finds no backup, changes nothing and reports failure. -/
theorem restore_idempotent_amended (fs : Fs) (backupPath originalPath content : String)
    (hne : backupPath ≠ originalPath) (hb : fs backupPath = some content) :
    (restoreBackup fs backupPath originalPath).1 = true ∧
    (restoreBackup fs backupPath originalPath).2 originalPath = some content ∧
    (restoreBackup fs backupPath originalPath).2 backupPath = none ∧
    (restoreBackup ((restoreBackup fs backupPath originalPath).2)
      backupPath originalPath).1 = false ∧
    (restoreBackup ((restoreBackup fs backupPath originalPath).2)
      backupPath originalPath).2 =
      (restoreBackup fs backupPath originalPath).2 := by
  have h2 : (restoreBackup fs backupPath originalPath).2 backupPath = none := by
    simp [restoreBackup, hb, fsWrite, fsRemove, hne]
  refine ⟨by simp [restoreBackup, hb], ?_, h2, ?_, ?_⟩
  · simp [restoreBackup, hb, fsWrite]
  · rw [restoreBackup, h2]
  · rw [restoreBackup, h2]

/-- C7 witness: the amended restore behaviour on a concrete filesystem
holding one backup. -/
theorem restore_idempotent_witness :
    ("/etc/demo.conf.bak.20260101120000" : String) ≠ "/etc/demo.conf" ∧
    demoFsWithBackup "/etc/demo.conf.bak.20260101120000" = some "old contents\n" ∧
    ((restoreBackup demoFsWithBackup "/etc/demo.conf.bak.20260101120000"
        "/etc/demo.conf").1 = true ∧
     (restoreBackup demoFsWithBackup "/etc/demo.conf.bak.20260101120000"
        "/etc/demo.conf").2 "/etc/demo.conf" = some "old contents\n" ∧
     (restoreBackup demoFsWithBackup "/etc/demo.conf.bak.20260101120000"
        "/etc/demo.conf").2 "/etc/demo.conf.bak.20260101120000" = none ∧
     (restoreBackup ((restoreBackup demoFsWithBackup
        "/etc/demo.conf.bak.20260101120000" "/etc/demo.conf").2)
        "/etc/demo.conf.bak.20260101120000" "/etc/demo.conf").1 = false ∧
     (restoreBackup ((restoreBackup demoFsWithBackup
        "/etc/demo.conf.bak.20260101120000" "/etc/demo.conf").2)
        "/etc/demo.conf.bak.20260101120000" "/etc/demo.conf").2 =
       (restoreBackup demoFsWithBackup "/etc/demo.conf.bak.20260101120000"
        "/etc/demo.conf").2) :=
  ⟨by decide, by decide,
   restore_idempotent_amended demoFsWithBackup "/etc/demo.conf.bak.20260101120000"
     "/etc/demo.conf" "old contents\n" (by decide) (by decide)⟩

/-- C8 counterexample: two backup operations on the same path in the same
timestamp second produce the same backup name, and the second overwrites
the first — its payload becomes the later content, the earlier backup
bytes are lost. -/
theorem backup_same_second_overwrite_cex :
    (createBackup demoFs "/etc/demo.conf" "20260101120000").1 =
      some (backupName "/etc/demo.conf" "20260101120000") ∧
    (createBackup (fsWrite (createBackup demoFs "/etc/demo.conf" "20260101120000").2
        "/etc/demo.conf" "second contents\n") "/etc/demo.conf" "20260101120000").1 =
      some (backupName "/etc/demo.conf" "20260101120000") ∧
    ((createBackup (fsWrite (createBackup demoFs "/etc/demo.conf" "20260101120000").2
        "/etc/demo.conf" "second contents\n") "/etc/demo.conf" "20260101120000").2)
      (backupName "/etc/demo.conf" "20260101120000") = some "second contents\n" := by
  decide

/-- C8 (amended): backups of the same path taken at distinct timestamps
have distinct names of the form `<path>.bak.<timestamp>` and coexist on
disk, neither overwritten; but the timestamp has one-second resolution, so
two backups within the same second share one name and the later overwrites
the earlier (the counterexample). -/
theorem backup_naming_amended (fs : Fs) (path c1 c2 t1 t2 : String)
    (h1 : fs path = some c1) (hts : t1 ≠ t2) :
    backupName path t1 ≠ backupName path t2 ∧
    ((createBackup (fsWrite (createBackup fs path t1).2 path c2) path t2).2)
      (backupName path t1) = some c1 ∧
    ((createBackup (fsWrite (createBackup fs path t1).2 path c2) path t2).2)
      (backupName path t2) = some c2 := by
  have hb1p := backupName_ne_path path t1
  have hb2p := backupName_ne_path path t2
  have hbb : backupName path t1 ≠ backupName path t2 :=
    fun h => hts (backupName_timestamp_inj h)
  refine ⟨hbb, ?_, ?_⟩
  · simp [createBackup, h1, fsWrite, hb1p, hb2p, hbb]
  · simp [createBackup, h1, fsWrite, hb1p, hb2p]

/-- C8 witness: two backups of the same path at distinct timestamps
coexist with their respective payloads. -/
theorem backup_naming_witness :
    demoFs "/etc/demo.conf" = some "orig contents\n" ∧
    ("20260101120000" : String) ≠ "20260101120001" ∧
    (backupName "/etc/demo.conf" "20260101120000" ≠
      backupName "/etc/demo.conf" "20260101120001" ∧
     ((createBackup (fsWrite (createBackup demoFs "/etc/demo.conf" "20260101120000").2
        "/etc/demo.conf" "second contents\n") "/etc/demo.conf" "20260101120001").2)
      (backupName "/etc/demo.conf" "20260101120000") = some "orig contents\n" ∧
     ((createBackup (fsWrite (createBackup demoFs "/etc/demo.conf" "20260101120000").2
        "/etc/demo.conf" "second contents\n") "/etc/demo.conf" "20260101120001").2)
      (backupName "/etc/demo.conf" "20260101120001") = some "second contents\n") :=
  ⟨by decide, by decide,
   backup_naming_amended demoFs "/etc/demo.conf" "orig contents\n" "second contents\n"
     "20260101120000" "20260101120001" (by decide) (by decide)⟩

/-- C9: `atomic_write` either succeeds with the path holding exactly the
new content, or fails with the path's original entry untouched — the
temporary file may be left behind, but at every observable step the path
shows either the old content or the fully-new content, never a partial
write. -/
theorem atomic_write_safety (fs : Fs) (path content : String)
    (fail : AtomicWriteFailure) :
    ((atomicWrite fs path content fail).1 = true →
      (atomicWrite fs path content fail).2.1 path = some content) ∧
    ((atomicWrite fs path content fail).1 = false →
      (atomicWrite fs path content fail).2.1 path = fs path) ∧
    (∀ g ∈ (atomicWrite fs path content fail).2.2,
      g path = fs path ∨ g path = some content) := by
  have htmp : path ≠ tmpName path := Ne.symm (tmpName_ne_path path)
  cases fail with
  | writeFails n =>
    refine ⟨?_, ?_, ?_⟩
    · intro h; simp [atomicWrite] at h
    · intro _
      simp [atomicWrite, fsWrite, htmp]
    · intro g hg
      simp only [atomicWrite, List.mem_cons, List.not_mem_nil, or_false] at hg
      rcases hg with hg | hg
      · left; rw [hg]
      · left; rw [hg]; simp [fsWrite, htmp]
  | replaceFails =>
    refine ⟨?_, ?_, ?_⟩
    · intro h; simp [atomicWrite] at h
    · intro _
      simp [atomicWrite, fsWrite, htmp]
    · intro g hg
      simp only [atomicWrite, List.mem_cons, List.not_mem_nil, or_false] at hg
      rcases hg with hg | hg
      · left; rw [hg]
      · left; rw [hg]; simp [fsWrite, htmp]
  | noFailure =>
    refine ⟨?_, ?_, ?_⟩
    · intro _
      simp [atomicWrite, fsWrite, fsRemove]
    · intro h; simp [atomicWrite] at h
    · intro g hg
      simp only [atomicWrite, List.mem_cons, List.not_mem_nil, or_false] at hg
      rcases hg with hg | hg | hg
      · left; rw [hg]
      · left; rw [hg]; simp [fsWrite, htmp]
      · right; rw [hg]; simp [fsWrite, fsRemove]

/-- C9 witness: atomic write on a concrete filesystem — success installs
the new content, a failure during the temporary write leaves the path
untouched. -/
theorem atomic_write_safety_witness :
    (atomicWrite demoFs "/etc/demo.conf" "fresh\n" AtomicWriteFailure.noFailure).2.1
      "/etc/demo.conf" = some "fresh\n" ∧
    (atomicWrite demoFs "/etc/demo.conf" "fresh\n" (AtomicWriteFailure.writeFails 3)).2.1
      "/etc/demo.conf" = demoFs "/etc/demo.conf" :=
  ⟨(atomic_write_safety demoFs "/etc/demo.conf" "fresh\n"
      AtomicWriteFailure.noFailure).1 rfl,
   (atomic_write_safety demoFs "/etc/demo.conf" "fresh\n"
      (AtomicWriteFailure.writeFails 3)).2.1 rfl⟩

/-- C10: any port the allocation loops return lies in [60000, 65535] and
its availability probe reported the port free at the moment of return —
the debian loop's TCP connect probe failed to connect
(`connect_ex != 0`), the alpine loop's `netstat | grep` found no listener;
a draw whose probe reports the port in use is never returned, the loop
draws again instead. -/
theorem port_allocation_safe (connectEx netstatGrepRc : Nat → Int)
    (draws alpineDraws : List Nat) (p q : Nat)
    (hdr : ∀ d ∈ draws, 60000 ≤ d ∧ d ≤ 65535)
    (hp : allocatePort connectEx draws = some p)
    (hdrA : ∀ d ∈ alpineDraws, 60000 ≤ d ∧ d ≤ 65500)
    (hq : alpineAllocatePort netstatGrepRc alpineDraws = some q) :
    (60000 ≤ p ∧ p ≤ 65535) ∧ isPortAvailable connectEx p = true ∧
    connectEx p ≠ 0 ∧
    (60000 ≤ q ∧ q ≤ 65535) ∧ netstatGrepRc q ≠ 0 ∧
    (∀ d rest, isPortAvailable connectEx d = false →
      allocatePort connectEx (d :: rest) = allocatePort connectEx rest) := by
  rcases allocatePort_spec connectEx draws p hp with ⟨hmem, havail⟩
  rcases alpineAllocatePort_spec netstatGrepRc alpineDraws q hq with ⟨hmemA, hgrep⟩
  rcases hdr p hmem with ⟨hp1, hp2⟩
  rcases hdrA q hmemA with ⟨hq1, hq2⟩
  refine ⟨⟨hp1, hp2⟩, havail, ?_, ⟨hq1, by omega⟩, ?_, ?_⟩
  · have := havail
    unfold isPortAvailable at this
    simpa using this
  · simpa using hgrep
  · intro d rest hd
    rw [allocatePort, if_neg (by simp [hd])]

/-- C10 witness: the allocation loops on concrete probe oracles that
report every port free. -/
theorem port_allocation_safe_witness :
    (∀ d ∈ [60000], 60000 ≤ d ∧ d ≤ 65535) ∧
    allocatePort (fun _ => 1) [60000] = some 60000 ∧
    (∀ d ∈ [60100], 60000 ≤ d ∧ d ≤ 65500) ∧
    alpineAllocatePort (fun _ => 1) [60100] = some 60100 ∧
    ((60000 ≤ 60000 ∧ 60000 ≤ 65535) ∧
      isPortAvailable (fun _ => 1) 60000 = true ∧
      (fun _ => (1 : Int)) 60000 ≠ 0 ∧
      (60000 ≤ 60100 ∧ 60100 ≤ 65535) ∧
      (fun _ => (1 : Int)) 60100 ≠ 0 ∧
      (∀ d rest, isPortAvailable (fun _ => (1 : Int)) d = false →
        allocatePort (fun _ => (1 : Int)) (d :: rest) =
          allocatePort (fun _ => (1 : Int)) rest)) :=
  ⟨by decide, rfl, by decide, rfl,
   port_allocation_safe (fun _ => 1) (fun _ => 1) [60000] [60100] 60000 60100
     (by decide) rfl (by decide) rfl⟩

end CommonScripts
